import Mathlib

set_option maxHeartbeats 1000000

/-!
Verification of the LightArt autocomplete service (`main.py`) and the
Gemini style-suggestion pipeline (`suggestionsPY.py`).

Strings are modelled as lists of characters.  Python's `str.strip()`,
`str.strip("\x60")`, `str.replace("json", "")` and `str.startswith` are
modelled character by character; the two FastAPI handlers, the health
check, the pydantic schema validation and the try/except fallback are
modelled as pure functions, with an explicit count of model invocations
where a claim speaks about whether the model was called.
-/

abbrev Chars := List Char

/-- Python whitespace, the character class removed by `str.strip()`. -/
def wsChar (c : Char) : Bool :=
  c = ' ' || c = '\t' || c = '\n' || c = '\r' || c = '\x0b' || c = '\x0c'

/-- Drop matching characters from the front of a string. -/
def lStrip (p : Char → Bool) (s : Chars) : Chars := s.dropWhile p

/-- Drop matching characters from the back of a string. -/
def rStrip (p : Char → Bool) (s : Chars) : Chars := (s.reverse.dropWhile p).reverse

/-- Strip matching characters from both ends of a string, as Python
`str.strip(chars)` does. -/
def stripEnds (p : Char → Bool) (s : Chars) : Chars := rStrip p (lStrip p s)

/-- Left half of `str.strip()`: drop leading whitespace. -/
def pyLStrip (s : Chars) : Chars := lStrip wsChar s

/-- Right half of `str.strip()`: drop trailing whitespace. -/
def pyRStrip (s : Chars) : Chars := rStrip wsChar s

/-- Python `str.strip()`: remove leading and trailing whitespace. -/
def pyStrip (s : Chars) : Chars := stripEnds wsChar s

/-- Backtick, the character class of `str.strip` at line 113 of
`suggestionsPY.py`. -/
def btChar (c : Char) : Bool := c = '`'

/-- Python `str.replace("json", "")`: remove every occurrence of the
substring `json`, scanning left to right (`suggestionsPY.py` line 113). -/
def removeJson : Chars → Chars
  | 'j' :: 's' :: 'o' :: 'n' :: rest => removeJson rest
  | c :: rest => c :: removeJson rest
  | [] => []

/-- Whether the substring `json` occurs anywhere in the string. -/
def containsJson : Chars → Bool
  | 'j' :: 's' :: 'o' :: 'n' :: _ => true
  | _ :: rest => containsJson rest
  | [] => false

/-- Python `str.startswith`, on character lists. -/
def startsWithChars (pre s : Chars) : Bool := List.isPrefixOf pre s

/-- Output normalizer of the image pipeline, `suggestionsPY.py` lines
112-113: if the raw text starts with a triple backtick, strip
whitespace, strip backticks from both ends, delete every occurrence of
`json`, and strip whitespace again; otherwise the text passes through
unchanged. -/
def normalizeRaw (raw : Chars) : Chars :=
  if startsWithChars "```".data raw then
    pyStrip (removeJson (stripEnds btChar (pyStrip raw)))
  else raw

/-- Response assembly shared by `/autocomplete` (line 140) and `/refine`
(line 215) of `main.py`: the f-string `sentence ++ " " ++ completion`,
then `.strip()`. -/
def assembleFullText (sentence completion : Chars) : Chars :=
  pyStrip (sentence ++ ' ' :: completion)

/-- A language-model handle, as far as the handlers observe it: from a
base sentence and the suggestion list to either raw generated content or
an exception message (the `llm.create_chat_completion` call of
`main.py`). -/
abbrev LlamaModel := Chars → List Chars → Except Chars Chars

/-- Error taxonomy of the HTTP surface of `main.py`:
`modelUnavailable` is HTTP 503, `invalidInput` is HTTP 400 (empty
sentence), `generationFailure` is HTTP 500 with the underlying
message. -/
inductive ApiError where
  | modelUnavailable : ApiError
  | invalidInput : ApiError
  | generationFailure : Chars → ApiError
deriving DecidableEq

/-- The `AutocompleteResponse` pydantic model of `main.py`. -/
structure AutocompleteResponse where
  completion : Chars
  full_text : Chars
deriving DecidableEq

/-- The function `autocomplete_lightart` of `main.py` (lines 51-81): call
the model and `.strip()` the returned content. -/
def autocomplete_lightart (m : LlamaModel) (base_sentence : Chars)
    (light_suggestions : List Chars) : Except Chars Chars :=
  match m base_sentence light_suggestions with
  | .ok content => .ok (pyStrip content)
  | .error e => .error e

/-- The function `refine_lightart` of `main.py` (lines 154-185); it
differs from `autocomplete_lightart` only in prompt and sampling
configuration, which the handle abstracts. -/
def refine_lightart (m : LlamaModel) (base_sentence : Chars)
    (light_suggestions : List Chars) : Except Chars Chars :=
  match m base_sentence light_suggestions with
  | .ok content => .ok (pyStrip content)
  | .error e => .error e

/-- The `/autocomplete` handler of `main.py` (lines 112-151), paired with
the number of model invocations the request performed: `llm is None` is
checked first (503), then the empty-after-strip sentence (400), then the
model is called exactly once and the response assembled. -/
def autocompleteHandler (llm : Option LlamaModel) (sentence : Chars)
    (suggestions : List Chars) : Except ApiError AutocompleteResponse × Nat :=
  match llm with
  | none => (.error .modelUnavailable, 0)
  | some m =>
    if pyStrip sentence = [] then (.error .invalidInput, 0)
    else
      match autocomplete_lightart m sentence suggestions with
      | .ok completion =>
        (.ok ⟨completion, assembleFullText sentence completion⟩, 1)
      | .error e => (.error (.generationFailure e), 1)

/-- The `/refine` handler of `main.py` (lines 187-226); identical control
flow to `/autocomplete`, calling `refine_lightart`. -/
def refineHandler (llm : Option LlamaModel) (sentence : Chars)
    (suggestions : List Chars) : Except ApiError AutocompleteResponse × Nat :=
  match llm with
  | none => (.error .modelUnavailable, 0)
  | some m =>
    if pyStrip sentence = [] then (.error .invalidInput, 0)
    else
      match refine_lightart m sentence suggestions with
      | .ok completion =>
        (.ok ⟨completion, assembleFullText sentence completion⟩, 1)
      | .error e => (.error (.generationFailure e), 1)

/-- The `/health` handler of `main.py` (lines 97-110): 503 when the model
handle is `None`, otherwise a healthy status reporting the model as
loaded. -/
def health_check (llm : Option LlamaModel) : Except ApiError Bool :=
  match llm with
  | none => .error .modelUnavailable
  | some _ => .ok true

/-- A JSON value, the result of Python's `json.loads`. -/
inductive JValue where
  | str : Chars → JValue
  | num : Int → JValue
  | jbool : Bool → JValue
  | null : JValue
  | arr : List JValue → JValue
  | obj : List (Chars × JValue) → JValue

/-- Lookup of a key in an association list (a JSON object's fields, or a
module's name bindings). -/
def lookupKey {α : Type} : List (Chars × α) → Chars → Option α
  | [], _ => none
  | (k, v) :: rest, key => if k = key then some v else lookupKey rest key

/-- The `MainSuggestions` pydantic model of `suggestionsPY.py` (lines
29-46): exactly four required string fields. -/
structure MainSuggestions where
  movie_style_suggestion : Chars
  mood_suggestion : Chars
  color_focus_suggestion : Chars
  other_main_suggestion : Chars
deriving DecidableEq

/-- The `CombinedSuggestions` pydantic model of `suggestionsPY.py` (lines
48-57): the four main suggestions plus the general suggestion list,
whose length the validator pins to exactly 15. -/
structure CombinedSuggestions where
  main_suggestions : MainSuggestions
  normal_suggestions : List Chars
deriving DecidableEq

/-- Reading a JSON value as a string, as pydantic's `str` field
validation does. -/
def asStr : JValue → Option Chars
  | .str s => some s
  | _ => none

/-- Reading a JSON array elementwise as strings. -/
def strElems : List JValue → Option (List Chars)
  | [] => some []
  | v :: rest =>
    match asStr v, strElems rest with
    | some s, some ss => some (s :: ss)
    | _, _ => none

/-- Pydantic validation of the `MainSuggestions` model: an object with
the four required fields, each a string; extra fields are ignored. -/
def MainSuggestions.model_validate (j : JValue) : Except Chars MainSuggestions :=
  match j with
  | .obj fields =>
    match lookupKey fields "movie_style_suggestion".data,
          lookupKey fields "mood_suggestion".data,
          lookupKey fields "color_focus_suggestion".data,
          lookupKey fields "other_main_suggestion".data with
    | some a, some b, some c, some d =>
      match asStr a, asStr b, asStr c, asStr d with
      | some sa, some sb, some sc, some sd => .ok ⟨sa, sb, sc, sd⟩
      | _, _, _, _ => .error "main suggestion fields must be strings".data
    | _, _, _, _ => .error "missing main suggestion field".data
  | _ => .error "main_suggestions must be an object".data

/-- Pydantic validation of the `CombinedSuggestions` model
(`suggestionsPY.py` lines 48-57): the `main_suggestions` object and the
`normal_suggestions` list, which `conlist(..., min_length=15,
max_length=15)` forces to have exactly 15 string elements. -/
def CombinedSuggestions.model_validate (j : JValue) : Except Chars CombinedSuggestions :=
  match j with
  | .obj fields =>
    match lookupKey fields "main_suggestions".data with
    | none => .error "field required: main_suggestions".data
    | some mj =>
      match MainSuggestions.model_validate mj with
      | .error e => .error e
      | .ok ms =>
        match lookupKey fields "normal_suggestions".data with
        | none => .error "field required: normal_suggestions".data
        | some nj =>
          match nj with
          | .arr elems =>
            match strElems elems with
            | none => .error "normal_suggestions items must be strings".data
            | some ss =>
              if ss.length = 15 then .ok ⟨ms, ss⟩
              else .error "normal_suggestions must have exactly 15 items".data
          | _ => .error "normal_suggestions must be a list".data
  | _ => .error "input must be an object".data

/-- Whether an `Except` computation succeeded. -/
def isOk {ε α : Type} : Except ε α → Bool
  | .ok _ => true
  | .error _ => false

/-- The fallback branch of the schema validator, `suggestionsPY.py` line
121: `CombinedSuggestions.model_validate(json.loads(raw))` — a raw JSON
decode of the same text followed by structural coercion; either step's
error propagates. -/
def fallbackDecode (json_loads : Chars → Except Chars JValue) (raw : Chars) :
    Except Chars CombinedSuggestions :=
  match json_loads raw with
  | .error e => .error e
  | .ok j => CombinedSuggestions.model_validate j

/-- The try/except of `suggestionsPY.py` lines 115-121: attempt the
schema-aware parse; on any failure run the fallback decode on the same
text.  The boolean records whether the fallback branch was entered. -/
def parseWithFallback (primary : Chars → Except Chars CombinedSuggestions)
    (json_loads : Chars → Except Chars JValue) (raw : Chars) :
    Except Chars CombinedSuggestions × Bool :=
  match primary raw with
  | .ok r => (.ok r, false)
  | .error _ => (fallbackDecode json_loads raw, true)

/-- The schema-aware decoder (langchain's `PydanticOutputParser.parse`,
used at `suggestionsPY.py` line 117): extract a JSON value from the text
with the library's own extraction, then validate it against the
`CombinedSuggestions` schema; either step's failure fails the parse. -/
def parser_parse (extract : Chars → Except Chars JValue) (raw : Chars) :
    Except Chars CombinedSuggestions :=
  match extract raw with
  | .error e => .error e
  | .ok j => CombinedSuggestions.model_validate j

/-- The full parse stage of `gemini_user_style_suggestions`
(`suggestionsPY.py` lines 115-121): schema-aware parse with fallback. -/
def gemini_parse_stage (extract json_loads : Chars → Except Chars JValue) (raw : Chars) :
    Except Chars CombinedSuggestions × Bool :=
  parseWithFallback (parser_parse extract) json_loads raw

/-- The four main suggestions of the worked example, as a JSON object. -/
def mainObjJson : JValue :=
  .obj [("movie_style_suggestion".data, .str "Give it a western look".data),
    ("mood_suggestion".data, .str "Add calm".data),
    ("color_focus_suggestion".data, .str "Emphasize blues".data),
    ("other_main_suggestion".data, .str "Classic finish".data)]

/-- A JSON object in the `CombinedSuggestions` shape whose
`normal_suggestions` list has `n` elements. -/
def bundleJson (n : Nat) : JValue :=
  .obj [("main_suggestions".data, mainObjJson),
    ("normal_suggestions".data, .arr (List.replicate n (.str "Soften the shadows".data)))]

/-- The bundle that validating `bundleJson 15` produces. -/
def goodBundle : CombinedSuggestions :=
  ⟨⟨"Give it a western look".data, "Add calm".data, "Emphasize blues".data,
    "Classic finish".data⟩, List.replicate 15 "Soften the shadows".data⟩

/-- Keyword arguments of a model invocation or client construction, as
passed at the three call sites. -/
structure SamplingArgs where
  max_tokens : Option Nat
  temperature : Option ℚ
  top_p : Option ℚ
deriving DecidableEq

/-- Arguments of the `create_chat_completion` call inside
`autocomplete_lightart`, `main.py` lines 76-78. -/
def autocomplete_lightart_args : SamplingArgs :=
  { max_tokens := some 20, temperature := some (1/10), top_p := some (9/10) }

/-- Arguments of the `create_chat_completion` call inside
`refine_lightart`, `main.py` lines 180-182. -/
def refine_lightart_args : SamplingArgs :=
  { max_tokens := some 50, temperature := some (2/10), top_p := some (9/10) }

/-- Arguments of the `ChatGoogleGenerativeAI` construction,
`suggestionsPY.py` lines 20-23: only `model` and `google_api_key` are
passed; no token budget, temperature or nucleus-sampling threshold is
set. -/
def gemini_args : SamplingArgs :=
  { max_tokens := none, temperature := none, top_p := none }

/-- A value bound in the module namespace of `suggestionsPY.py`: a string
(such as `__name__`) or a function object. -/
inductive PyVal where
  | str : Chars → PyVal
  | func : PyVal
deriving DecidableEq

/-- Evaluation of the entry-point guard `_name_ == "_main_"` at line 125
of `suggestionsPY.py`: look up the name `_name_`; an unbound name is a
`NameError`, otherwise compare the value against the string
`"_main_"`. -/
def evalGuard (env : List (Chars × PyVal)) : Except Chars Bool :=
  match lookupKey env "_name_".data with
  | none => .error "NameError: name _name_ is not defined".data
  | some v => .ok (v = PyVal.str "_main_".data)

/-- The module namespace of `suggestionsPY.py` when line 125 executes:
the interpreter has bound `__name__` (to `"__main__"` when run as a
script, to the module name on import), and the module body has bound its
functions, among them `gemini_user_style_suggestions`; nothing binds
`_name_`. -/
def suggestionsModuleEnv (name_value : Chars) : List (Chars × PyVal) :=
  [("__name__".data, PyVal.str name_value),
   ("pil_to_data_uri".data, PyVal.func),
   ("gemini_user_style_suggestions".data, PyVal.func)]

/-! Lemmas about end-stripping, shared by the whitespace strip of
`main.py` and the whitespace/backtick strips of `suggestionsPY.py`. -/

lemma stripEnds_eq (p : Char → Bool) (s : Chars) : stripEnds p s = rStrip p (lStrip p s) := rfl

lemma rStrip_eq_rev (p : Char → Bool) (s : Chars) :
    rStrip p s = (lStrip p s.reverse).reverse := rfl

lemma lStrip_cons_pos (p : Char → Bool) {c : Char} (h : p c = true) (s : Chars) :
    lStrip p (c :: s) = lStrip p s := by
  simp [lStrip, List.dropWhile_cons, h]

lemma lStrip_cons_neg (p : Char → Bool) {c : Char} (h : p c = false) (s : Chars) :
    lStrip p (c :: s) = c :: s := by
  simp [lStrip, List.dropWhile_cons, h]

lemma lStrip_append_of_ne (p : Char → Bool) {s : Chars} (h : lStrip p s ≠ []) (t : Chars) :
    lStrip p (s ++ t) = lStrip p s ++ t := by
  simp only [lStrip] at *
  rw [List.dropWhile_append, if_neg (by simpa [List.isEmpty_iff] using h)]

lemma lStrip_append_of_nil (p : Char → Bool) {s : Chars} (h : lStrip p s = []) (t : Chars) :
    lStrip p (s ++ t) = lStrip p t := by
  simp only [lStrip] at *
  rw [List.dropWhile_append, if_pos (by simpa [List.isEmpty_iff] using h)]

lemma rStrip_append_of_ne (p : Char → Bool) {t : Chars} (h : rStrip p t ≠ []) (s : Chars) :
    rStrip p (s ++ t) = s ++ rStrip p t := by
  have h' : lStrip p t.reverse ≠ [] := by
    intro hx
    exact h (by rw [rStrip_eq_rev, hx]; rfl)
  rw [rStrip_eq_rev, List.reverse_append, lStrip_append_of_ne p h',
    List.reverse_append, List.reverse_reverse, ← rStrip_eq_rev]

lemma rStrip_append_of_nil (p : Char → Bool) {t : Chars} (h : rStrip p t = []) (s : Chars) :
    rStrip p (s ++ t) = rStrip p s := by
  have h' : lStrip p t.reverse = [] := by
    have hx := congrArg List.reverse h
    rwa [rStrip_eq_rev, List.reverse_reverse, List.reverse_nil] at hx
  rw [rStrip_eq_rev, List.reverse_append, lStrip_append_of_nil p h', ← rStrip_eq_rev]

lemma lStrip_idem (p : Char → Bool) (s : Chars) : lStrip p (lStrip p s) = lStrip p s := by
  simp [lStrip, List.dropWhile_idempotent]

lemma rStrip_idem (p : Char → Bool) (s : Chars) : rStrip p (rStrip p s) = rStrip p s := by
  rw [rStrip_eq_rev, rStrip_eq_rev, List.reverse_reverse, lStrip_idem]

lemma rStrip_nil_of_lStrip (p : Char → Bool) {s : Chars} (h : lStrip p s = []) :
    rStrip p s = [] := by
  rw [rStrip_eq_rev]
  have hx : lStrip p s.reverse = [] := by
    simp only [lStrip, List.dropWhile_eq_nil_iff] at *
    intro c hc
    exact h c (List.mem_reverse.mp hc)
  rw [hx]; rfl

lemma rStrip_singleton_pos (p : Char → Bool) {c : Char} (h : p c = true) : rStrip p [c] = [] := by
  simp [rStrip, List.dropWhile, h]

lemma rStrip_singleton_neg (p : Char → Bool) {c : Char} (h : p c = false) :
    rStrip p [c] = [c] := by
  simp [rStrip, List.dropWhile, h]

lemma rStrip_cons (p : Char → Bool) (c : Char) (t : Chars) :
    rStrip p (c :: t) =
      if rStrip p t = [] then (if p c then [] else [c]) else c :: rStrip p t := by
  by_cases h : rStrip p t = []
  · rw [if_pos h, show (c :: t) = [c] ++ t from rfl, rStrip_append_of_nil p h]
    by_cases hc : p c
    · rw [if_pos hc, rStrip_singleton_pos p hc]
    · rw [if_neg hc, rStrip_singleton_neg p (by simpa using hc)]
  · rw [if_neg h, show (c :: t) = [c] ++ t from rfl, rStrip_append_of_ne p h]
    rfl

lemma lrStrip_comm (p : Char → Bool) (s : Chars) :
    rStrip p (lStrip p s) = lStrip p (rStrip p s) := by
  induction s with
  | nil => rfl
  | cons c t ih =>
    by_cases hc : p c
    · rw [lStrip_cons_pos p hc, ih, rStrip_cons]
      by_cases ht : rStrip p t = []
      · rw [if_pos ht, if_pos hc, ht]
      · rw [if_neg ht, lStrip_cons_pos p hc]
    · have hc' : p c = false := by simpa using hc
      rw [lStrip_cons_neg p hc', rStrip_cons]
      by_cases ht : rStrip p t = []
      · rw [if_pos ht, if_neg hc, lStrip_cons_neg p hc']
      · rw [if_neg ht, lStrip_cons_neg p hc']

lemma stripEnds_eq' (p : Char → Bool) (s : Chars) :
    stripEnds p s = lStrip p (rStrip p s) := by
  rw [stripEnds_eq, lrStrip_comm]

lemma stripEnds_cons_pos (p : Char → Bool) {c : Char} (h : p c = true) (s : Chars) :
    stripEnds p (c :: s) = stripEnds p s := by
  rw [stripEnds_eq, lStrip_cons_pos p h, ← stripEnds_eq]

lemma stripEnds_append_pos (p : Char → Bool) {c : Char} (h : p c = true) (s : Chars) :
    stripEnds p (s ++ [c]) = stripEnds p s := by
  rw [stripEnds_eq', rStrip_append_of_nil p (rStrip_singleton_pos p h), ← stripEnds_eq']

lemma stripEnds_idem (p : Char → Bool) (s : Chars) :
    stripEnds p (stripEnds p s) = stripEnds p s := by
  calc stripEnds p (stripEnds p s)
      = lStrip p (rStrip p (lStrip p (rStrip p s))) := by
        rw [stripEnds_eq', stripEnds_eq']
    _ = lStrip p (lStrip p (rStrip p (rStrip p s))) := by
        rw [lrStrip_comm p (rStrip p s)]
    _ = stripEnds p s := by rw [rStrip_idem, lStrip_idem, ← stripEnds_eq']

lemma rStrip_decomp (p : Char → Bool) (s : Chars) : ∃ w, s = rStrip p s ++ w := by
  refine ⟨(s.reverse.takeWhile p).reverse, ?_⟩
  rw [rStrip_eq_rev]
  have hx : s.reverse.dropWhile p ++ s.reverse.takeWhile p = (lStrip p s.reverse) ++ s.reverse.takeWhile p := rfl
  calc s = s.reverse.reverse := by rw [List.reverse_reverse]
    _ = (s.reverse.takeWhile p ++ s.reverse.dropWhile p).reverse := by
        rw [List.takeWhile_append_dropWhile]
    _ = (s.reverse.dropWhile p).reverse ++ (s.reverse.takeWhile p).reverse := by
        rw [List.reverse_append]
    _ = (lStrip p s.reverse).reverse ++ (s.reverse.takeWhile p).reverse := rfl

/-- The strip of a string extended on the right begins with the strip of
the string: trailing material never disturbs the stripped head. -/
lemma stripEnds_append_pref (p : Char → Bool) (s u : Chars) :
    ∃ t, stripEnds p (s ++ u) = stripEnds p s ++ t := by
  by_cases hl : lStrip p s = []
  · refine ⟨stripEnds p (s ++ u), ?_⟩
    rw [stripEnds_eq p s, hl, show rStrip p [] = [] from rfl, List.nil_append]
  · rw [stripEnds_eq, lStrip_append_of_ne p hl]
    by_cases hu : rStrip p u = []
    · exact ⟨[], by rw [rStrip_append_of_nil p hu, List.append_nil, stripEnds_eq]⟩
    · obtain ⟨w, hw⟩ := rStrip_decomp p (lStrip p s)
      refine ⟨w ++ rStrip p u, ?_⟩
      rw [rStrip_append_of_ne p hu, stripEnds_eq, ← List.append_assoc, ← hw]

lemma removeJson_not_contains (s : Chars) (h : containsJson s = false) : removeJson s = s := by
  induction s using removeJson.induct with
  | case1 rest ih => simp [containsJson] at h
  | case2 c rest hne ih =>
    have h' : containsJson rest = false := by
      rwa [containsJson.eq_2 c rest hne] at h
    rw [removeJson.eq_2 c rest hne, ih h']
  | case3 => rfl

lemma removeJson_append_nl (xs : Chars) (h : containsJson xs = false) :
    removeJson (xs ++ ['\n']) = xs ++ ['\n'] := by
  induction xs using removeJson.induct with
  | case1 rest ih => simp [containsJson] at h
  | case2 c rest hne ih =>
    have h' : containsJson rest = false := by
      rwa [containsJson.eq_2 c rest hne] at h
    have hne' : ∀ r1 : List Char, c = 'j' → rest ++ ['\n'] = 's' :: 'o' :: 'n' :: r1 → False := by
      intro r1 hcj hr
      rcases rest with _ | ⟨c1, _ | ⟨c2, _ | ⟨c3, r⟩⟩⟩
      · simp at hr
      · simp at hr
      · simp only [List.cons_append, List.nil_append, List.cons.injEq] at hr
        exact absurd hr.2.2.1 (by decide)
      · simp only [List.cons_append, List.cons.injEq] at hr
        exact hne r hcj (by rw [hr.1, hr.2.1, hr.2.2.1])
    rw [List.cons_append, removeJson.eq_2 c (rest ++ ['\n']) hne', ih h']
  | case3 => decide

lemma removeJson_json_prefix_nl (rest : Chars) :
    removeJson ("json".data ++ rest) = removeJson rest := by
  exact removeJson.eq_1 rest

lemma stripEnds_append_of_rstripped (p : Char → Bool) {s : Chars} (h : rStrip p s = s)
    (x : Chars) : stripEnds p (s ++ x) = stripEnds p (stripEnds p s ++ x) := by
  by_cases hl : lStrip p s = []
  · have hs : s = [] := by rw [← h, rStrip_nil_of_lStrip p hl]
    rw [hs]
    rfl
  · have hps : stripEnds p s = lStrip p s := by rw [stripEnds_eq', h]
    have hl' : lStrip p (lStrip p s) ≠ [] := by rw [lStrip_idem]; exact hl
    rw [hps, stripEnds_eq p (s ++ x), stripEnds_eq p (lStrip p s ++ x),
      lStrip_append_of_ne p hl x, lStrip_append_of_ne p hl' x, lStrip_idem]

lemma startsWith_app (pre t : Chars) : startsWithChars pre (pre ++ t) = true := by
  induction pre with
  | nil => simp [startsWithChars, List.isPrefixOf]
  | cons c cs ih =>
    simp only [startsWithChars, List.cons_append, List.isPrefixOf] at *
    simp [ih]

/-- A model reply fenced in the standard form: opening triple backtick,
optional language tag, newline, inner content, newline, closing triple
backtick. -/
def fenceWrap (tag body : Chars) : Chars :=
  "```".data ++ tag ++ ('\n' :: (body ++ ('\n' :: "```".data)))

lemma normalizeRaw_fence (tag body : Chars) (htag : tag = [] ∨ tag = "json".data)
    (hbody : containsJson body = false) :
    normalizeRaw (fenceWrap tag body) = pyStrip body := by
  have hnej : ∀ r1 : List Char, '\n' = 'j' → body ++ ['\n'] = 's' :: 'o' :: 'n' :: r1 → False := by
    intro r1 hx _
    exact absurd hx (by decide)
  rcases htag with h | h <;> subst h
  · have hshape : fenceWrap [] body =
        ('`' :: '`' :: '`' :: '\n' :: (body ++ ['\n'])) ++ "```".data := by
      simp [fenceWrap]
    have hcond : startsWithChars "```".data (fenceWrap [] body) = true := by
      exact startsWith_app "```".data ('\n' :: (body ++ ('\n' :: "```".data)))
    have hstrip : pyStrip (fenceWrap [] body) = fenceWrap [] body := by
      have hr : rStrip wsChar (fenceWrap [] body) = fenceWrap [] body := by
        rw [hshape, rStrip_append_of_ne wsChar (t := "```".data) (by decide)]
        rw [show rStrip wsChar "```".data = "```".data from by decide]
      have hl : lStrip wsChar (fenceWrap [] body) = fenceWrap [] body := by
        rw [show fenceWrap [] body =
          '`' :: ('`' :: '`' :: '\n' :: (body ++ ('\n' :: "```".data))) from by
            simp [fenceWrap]]
        exact lStrip_cons_neg wsChar (by decide) _
      rw [pyStrip, stripEnds_eq, hl, hr]
    have hbt : stripEnds btChar (fenceWrap [] body) = '\n' :: (body ++ ['\n']) := by
      have hl : lStrip btChar (fenceWrap [] body) =
          '\n' :: (body ++ ('\n' :: "```".data)) := by
        rw [show fenceWrap [] body =
          '`' :: ('`' :: ('`' :: ('\n' :: (body ++ ('\n' :: "```".data))))) from by
            simp [fenceWrap]]
        rw [lStrip_cons_pos btChar (by decide), lStrip_cons_pos btChar (by decide),
          lStrip_cons_pos btChar (by decide), lStrip_cons_neg btChar (by decide)]
      rw [stripEnds_eq, hl]
      rw [show '\n' :: (body ++ ('\n' :: "```".data)) =
        (('\n' :: body) ++ ['\n']) ++ "```".data from by simp]
      rw [rStrip_append_of_nil btChar (by decide)]
      rw [rStrip_append_of_ne btChar (t := ['\n']) (by decide),
        show rStrip btChar ['\n'] = ['\n'] from by decide]
      simp
    have hrj : removeJson ('\n' :: (body ++ ['\n'])) = '\n' :: (body ++ ['\n']) := by
      rw [removeJson.eq_2 '\n' (body ++ ['\n']) hnej, removeJson_append_nl body hbody]
    rw [normalizeRaw, if_pos hcond, hstrip, hbt, hrj, pyStrip,
      stripEnds_cons_pos wsChar (by decide), stripEnds_append_pos wsChar (by decide)]
    rfl
  · have hshape : fenceWrap "json".data body =
        ('`' :: '`' :: '`' :: 'j' :: 's' :: 'o' :: 'n' :: '\n' :: (body ++ ['\n'])) ++
          "```".data := by
      simp [fenceWrap]
    have hcond : startsWithChars "```".data (fenceWrap "json".data body) = true := by
      exact startsWith_app "```".data
        ('j' :: 's' :: 'o' :: 'n' :: '\n' :: (body ++ ('\n' :: "```".data)))
    have hstrip : pyStrip (fenceWrap "json".data body) = fenceWrap "json".data body := by
      have hr : rStrip wsChar (fenceWrap "json".data body) = fenceWrap "json".data body := by
        rw [hshape, rStrip_append_of_ne wsChar (t := "```".data) (by decide)]
        rw [show rStrip wsChar "```".data = "```".data from by decide]
      have hl : lStrip wsChar (fenceWrap "json".data body) = fenceWrap "json".data body := by
        rw [show fenceWrap "json".data body =
          '`' :: ('`' :: '`' :: 'j' :: 's' :: 'o' :: 'n' :: '\n' ::
            (body ++ ('\n' :: "```".data))) from by simp [fenceWrap]]
        exact lStrip_cons_neg wsChar (by decide) _
      rw [pyStrip, stripEnds_eq, hl, hr]
    have hbt : stripEnds btChar (fenceWrap "json".data body) =
        'j' :: 's' :: 'o' :: 'n' :: '\n' :: (body ++ ['\n']) := by
      have hl : lStrip btChar (fenceWrap "json".data body) =
          'j' :: 's' :: 'o' :: 'n' :: '\n' :: (body ++ ('\n' :: "```".data)) := by
        rw [show fenceWrap "json".data body =
          '`' :: ('`' :: ('`' :: ('j' :: 's' :: 'o' :: 'n' :: '\n' ::
            (body ++ ('\n' :: "```".data))))) from by simp [fenceWrap]]
        rw [lStrip_cons_pos btChar (by decide), lStrip_cons_pos btChar (by decide),
          lStrip_cons_pos btChar (by decide), lStrip_cons_neg btChar (by decide)]
      rw [stripEnds_eq, hl]
      rw [show 'j' :: 's' :: 'o' :: 'n' :: '\n' :: (body ++ ('\n' :: "```".data)) =
        (('j' :: 's' :: 'o' :: 'n' :: '\n' :: body) ++ ['\n']) ++ "```".data from by simp]
      rw [rStrip_append_of_nil btChar (by decide)]
      rw [rStrip_append_of_ne btChar (t := ['\n']) (by decide),
        show rStrip btChar ['\n'] = ['\n'] from by decide]
      simp
    have hrj : removeJson ('j' :: 's' :: 'o' :: 'n' :: '\n' :: (body ++ ['\n'])) =
        '\n' :: (body ++ ['\n']) := by
      rw [removeJson.eq_1, removeJson.eq_2 '\n' (body ++ ['\n']) hnej,
        removeJson_append_nl body hbody]
    rw [normalizeRaw, if_pos hcond, hstrip, hbt, hrj, pyStrip,
      stripEnds_cons_pos wsChar (by decide), stripEnds_append_pos wsChar (by decide)]
    rfl

lemma model_validate_length (j : JValue) (r : CombinedSuggestions)
    (h : CombinedSuggestions.model_validate j = .ok r) :
    r.normal_suggestions.length = 15 := by
  cases j with
  | obj fields =>
    simp only [CombinedSuggestions.model_validate] at h
    cases hms : lookupKey fields "main_suggestions".data with
    | none => simp only [hms] at h; exact absurd h (by simp)
    | some mj =>
      simp only [hms] at h
      cases hval : MainSuggestions.model_validate mj with
      | error e => simp only [hval] at h; exact absurd h (by simp)
      | ok ms =>
        simp only [hval] at h
        cases hns : lookupKey fields "normal_suggestions".data with
        | none => simp only [hns] at h; exact absurd h (by simp)
        | some nj =>
          simp only [hns] at h
          cases nj with
          | arr elems =>
            cases hse : strElems elems with
            | none => simp only [hse] at h; exact absurd h (by simp)
            | some ss =>
              simp only [hse] at h
              by_cases hlen : ss.length = 15
              · rw [if_pos hlen] at h
                injection h with h2
                subst h2
                exact hlen
              · rw [if_neg hlen] at h
                exact absurd h (by simp)
          | str s => simp at h
          | num n => simp at h
          | jbool b => simp at h
          | null => simp at h
          | obj flds => simp at h
  | str s => simp [CombinedSuggestions.model_validate] at h
  | num n => simp [CombinedSuggestions.model_validate] at h
  | jbool b => simp [CombinedSuggestions.model_validate] at h
  | null => simp [CombinedSuggestions.model_validate] at h
  | arr elems => simp [CombinedSuggestions.model_validate] at h

/-! Claim theorems. -/

/-- Claim C1, counterexample: the claim says a fenced string normalizes
to its inner content, otherwise unchanged, with delimiters and tag
removed and whitespace trimmed.  For the fenced input whose inner
content is the JSON text with value "json", the code's
`.replace("json", "")` deletes the occurrence of `json` inside the
content, so the result differs from the (trimmed, otherwise unchanged)
inner content the claim predicts. -/
theorem claim_c1_counterexample :
    normalizeRaw "```json\n\x7b\"a\":\"json\"\x7d\n```".data = "\x7b\"a\":\"\"\x7d".data ∧
    pyStrip "\x7b\"a\":\"json\"\x7d".data = "\x7b\"a\":\"json\"\x7d".data ∧
    "\x7b\"a\":\"\"\x7d".data ≠ "\x7b\"a\":\"json\"\x7d".data :=
  ⟨by decide, by decide, by decide⟩

/-- Claim C1, amended: a string fenced as triple backtick, optional tag
(`json` or none), newline, body, newline, triple backtick normalizes to
the trimmed body provided the body contains no occurrence of the
substring `json` (the code removes every such occurrence, not only the
tag); any string not starting with a triple backtick passes through
unchanged; the spec's two examples hold. -/
theorem claim_c1_normalizer :
    (∀ tag body : Chars, (tag = [] ∨ tag = "json".data) → containsJson body = false →
      normalizeRaw (fenceWrap tag body) = pyStrip body) ∧
    (∀ raw : Chars, startsWithChars "```".data raw = false → normalizeRaw raw = raw) ∧
    normalizeRaw "```json\n\x7b\"a\":1\x7d\n```".data = "\x7b\"a\":1\x7d".data ∧
    normalizeRaw "\x7b\"a\":1\x7d".data = "\x7b\"a\":1\x7d".data := by
  refine ⟨normalizeRaw_fence, ?_, by decide, by decide⟩
  intro raw h
  simp [normalizeRaw, h]

/-- Witness for C1 at a concrete fenced and a concrete unfenced input. -/
theorem claim_c1_normalizer_witness :
    normalizeRaw (fenceWrap "json".data "hello world".data) = pyStrip "hello world".data ∧
    normalizeRaw "plain text".data = "plain text".data :=
  ⟨claim_c1_normalizer.1 "json".data "hello world".data (Or.inr rfl) (by decide),
    claim_c1_normalizer.2.1 "plain text".data (by decide)⟩

/-- Claim C2: the schema-aware parse runs first; the fallback (raw JSON
decode of the same text, then structural coercion) runs exactly when the
primary fails; a fallback failure propagates and nothing further is
attempted. -/
theorem claim_c2_schema_fallback :
    ∀ (primary : Chars → Except Chars CombinedSuggestions)
      (json_loads : Chars → Except Chars JValue) (raw : Chars),
      ((parseWithFallback primary json_loads raw).2 = !(isOk (primary raw))) ∧
      (∀ r, primary raw = .ok r → parseWithFallback primary json_loads raw = (.ok r, false)) ∧
      (∀ e, primary raw = .error e →
        parseWithFallback primary json_loads raw = (fallbackDecode json_loads raw, true)) ∧
      (∀ e f, primary raw = .error e → json_loads raw = .error f →
        parseWithFallback primary json_loads raw = (.error f, true)) := by
  intro primary json_loads raw
  refine ⟨?_, ?_, ?_, ?_⟩
  · cases hp : primary raw <;> simp [parseWithFallback, hp, isOk]
  · intro r h
    simp [parseWithFallback, h]
  · intro e h
    simp [parseWithFallback, h]
  · intro e f h hf
    simp [parseWithFallback, fallbackDecode, h, hf]

/-- Witness for C2: a failing primary and a failing raw decode propagate
the decode error, through the fallback branch. -/
theorem claim_c2_schema_fallback_witness :
    parseWithFallback (fun _ => .error "no parse".data) (fun _ => .error "bad json".data) [] =
      (.error "bad json".data, true) :=
  (claim_c2_schema_fallback (fun _ => .error "no parse".data)
    (fun _ => .error "bad json".data) []).2.2.2 "no parse".data "bad json".data rfl rfl

/-- Claim C3: every bundle the parse stage successfully returns has the
four main fields and exactly 15 normal suggestions (so 4 + 15 = 19); the
object with 14 normal suggestions fails schema validation; and when the
schema-aware parse and the fallback both fail, the stage surfaces an
error instead of a bundle. -/
theorem claim_c3_cardinality :
    (∀ (extract json_loads : Chars → Except Chars JValue) (raw : Chars)
      (r : CombinedSuggestions) (b : Bool),
      gemini_parse_stage extract json_loads raw = (.ok r, b) →
      4 + r.normal_suggestions.length = 19) ∧
    isOk (CombinedSuggestions.model_validate (bundleJson 14)) = false ∧
    (∀ (extract json_loads : Chars → Except Chars JValue) (raw : Chars),
      isOk (parser_parse extract raw) = false →
      isOk (fallbackDecode json_loads raw) = false →
      isOk (gemini_parse_stage extract json_loads raw).1 = false) := by
  refine ⟨?_, by decide, ?_⟩
  · intro extract json_loads raw r b h
    unfold gemini_parse_stage parseWithFallback at h
    cases hp : parser_parse extract raw with
    | ok r0 =>
      simp only [hp, Prod.mk.injEq] at h
      obtain ⟨h1, -⟩ := h
      injection h1 with h1
      subst h1
      unfold parser_parse at hp
      cases he : extract raw with
      | error e => simp only [he] at hp; exact absurd hp (by simp)
      | ok j =>
        simp only [he] at hp
        rw [model_validate_length j r0 hp]
    | error e =>
      simp only [hp, Prod.mk.injEq] at h
      obtain ⟨h1, -⟩ := h
      unfold fallbackDecode at h1
      cases hl : json_loads raw with
      | error f => simp only [hl] at h1; exact absurd h1 (by simp)
      | ok j =>
        simp only [hl] at h1
        rw [model_validate_length j r h1]
  · intro extract json_loads raw hp hf
    unfold gemini_parse_stage parseWithFallback at *
    cases he : parser_parse extract raw with
    | ok r0 => rw [he] at hp; exact absurd hp (by simp [isOk])
    | error e => simp only [he]; exact hf

/-- Witness for C3: the 15-element object validates to a bundle of total
count 19 through the parse stage, and a doubly failing input surfaces an
error. -/
theorem claim_c3_cardinality_witness :
    4 + goodBundle.normal_suggestions.length = 19 ∧
    isOk (gemini_parse_stage (fun _ => .error "no json".data)
      (fun _ => .error "still no json".data) []).1 = false := by
  refine ⟨claim_c3_cardinality.1 (fun _ => .ok (bundleJson 15))
      (fun _ => .error "unused".data) [] goodBundle false ?_,
    claim_c3_cardinality.2.2 (fun _ => .error "no json".data)
      (fun _ => .error "still no json".data) [] (by decide) (by decide)⟩
  rfl

/-- Claim C4, counterexample: the claim says fullText is the trimmed
base sentence, one space, and the trimmed completion, trimmed.  The code
interpolates the raw sentence, so a base sentence with a trailing space
yields a double space where the claim predicts a single one. -/
theorem claim_c4_counterexample :
    assembleFullText "a ".data "b".data = "a  b".data ∧
    pyStrip (pyStrip "a ".data ++ ' ' :: pyStrip "b".data) = "a b".data ∧
    "a  b".data ≠ "a b".data :=
  ⟨by decide, by decide, by decide⟩

/-- Claim C4, amended: fullText is the raw base sentence, a single
space, and the completion, with the whole trimmed; this equals the
claim's formula whenever the base sentence has no trailing whitespace
(completions are pre-trimmed by the generation functions); an empty
completion yields exactly the trimmed base sentence; and both the
`/autocomplete` and `/refine` handlers assemble full_text this way. -/
theorem claim_c4_full_text :
    ∀ sentence completion : Chars,
      (pyRStrip sentence = sentence → pyStrip completion = completion →
        assembleFullText sentence completion =
          pyStrip (pyStrip sentence ++ ' ' :: pyStrip completion)) ∧
      (completion = [] → assembleFullText sentence completion = pyStrip sentence) ∧
      (∀ (m : LlamaModel) (sug : List Chars) (r : AutocompleteResponse) (n : Nat),
        autocompleteHandler (some m) sentence sug = (.ok r, n) →
        r.full_text = assembleFullText sentence r.completion) ∧
      (∀ (m : LlamaModel) (sug : List Chars) (r : AutocompleteResponse) (n : Nat),
        refineHandler (some m) sentence sug = (.ok r, n) →
        r.full_text = assembleFullText sentence r.completion) := by
  intro s c
  refine ⟨?_, ?_, ?_, ?_⟩
  · intro h1 h2
    have h1' : rStrip wsChar s = s := h1
    rw [h2]
    show stripEnds wsChar (s ++ ' ' :: c) = stripEnds wsChar (stripEnds wsChar s ++ ' ' :: c)
    exact stripEnds_append_of_rstripped wsChar h1' (' ' :: c)
  · intro h
    subst h
    show stripEnds wsChar (s ++ [' ']) = stripEnds wsChar s
    exact stripEnds_append_pos wsChar (by decide) s
  · intro m sug r n h
    cases hm : autocomplete_lightart m s sug with
    | ok comp =>
      by_cases hs : pyStrip s = []
      · simp [autocompleteHandler, hs] at h
      · simp only [autocompleteHandler, if_neg hs, hm] at h
        obtain ⟨h1, -⟩ := Prod.mk.injEq .. ▸ h
        injection h1 with h1
        rw [← h1]
    | error e =>
      by_cases hs : pyStrip s = []
      · simp [autocompleteHandler, hs] at h
      · simp [autocompleteHandler, if_neg hs, hm] at h
  · intro m sug r n h
    cases hm : refine_lightart m s sug with
    | ok comp =>
      by_cases hs : pyStrip s = []
      · simp [refineHandler, hs] at h
      · simp only [refineHandler, if_neg hs, hm] at h
        obtain ⟨h1, -⟩ := Prod.mk.injEq .. ▸ h
        injection h1 with h1
        rw [← h1]
    | error e =>
      by_cases hs : pyStrip s = []
      · simp [refineHandler, hs] at h
      · simp [refineHandler, if_neg hs, hm] at h

/-- Witness for C4 at concrete sentences and completions. -/
theorem claim_c4_full_text_witness :
    assembleFullText "a".data "b".data =
      pyStrip (pyStrip "a".data ++ ' ' :: pyStrip "b".data) ∧
    assembleFullText "x y".data [] = pyStrip "x y".data ∧
    (⟨"w".data, "a w".data⟩ : AutocompleteResponse).full_text =
      assembleFullText "a".data
        (⟨"w".data, "a w".data⟩ : AutocompleteResponse).completion := by
  refine ⟨(claim_c4_full_text "a".data "b".data).1 (by decide) (by decide),
    (claim_c4_full_text "x y".data []).2.1 rfl,
    (claim_c4_full_text "a".data "w".data).2.2.1 (fun _ _ => .ok "w".data) []
      ⟨"w".data, "a w".data⟩ 1 ?_⟩
  show (Except.ok (⟨"w".data, assembleFullText "a".data "w".data⟩ : AutocompleteResponse), 1) =
    (Except.ok (⟨"w".data, "a w".data⟩ : AutocompleteResponse), 1)
  have : assembleFullText "a".data "w".data = "a w".data := by decide
  rw [this]

/-- Claim C5: for a base sentence that is non-empty after trimming, a
non-empty allowed-phrase list, and any completion, the assembled
fullText starts with the trimmed base sentence. -/
theorem claim_c5_full_text_starts :
    ∀ (baseSentence completion : Chars) (allowedPhrases : List Chars),
      pyStrip baseSentence ≠ [] → allowedPhrases ≠ [] →
      startsWithChars (pyStrip baseSentence)
        (assembleFullText baseSentence completion) = true := by
  intro s c phrases hs hp
  obtain ⟨t, ht⟩ := stripEnds_append_pref wsChar s (' ' :: c)
  show startsWithChars (stripEnds wsChar s) (stripEnds wsChar (s ++ ' ' :: c)) = true
  rw [ht]
  exact startsWith_app _ t

/-- Witness for C5 at a concrete request. -/
theorem claim_c5_full_text_starts_witness :
    startsWithChars (pyStrip " soften the ".data)
      (assembleFullText " soften the ".data "warm amber glow".data) = true :=
  claim_c5_full_text_starts " soften the ".data "warm amber glow".data
    ["warm amber glow".data] (by decide) (by decide)

/-- Claim C6, counterexample: the claim promises InvalidInput for every
whitespace-only sentence, but when the model handle is `None` the
handlers return ModelUnavailable for the same request, because the
availability check runs first. -/
theorem claim_c6_counterexample :
    pyStrip " ".data = [] ∧
    autocompleteHandler none " ".data [] = (.error .modelUnavailable, 0) ∧
    refineHandler none " ".data [] = (.error .modelUnavailable, 0) ∧
    ApiError.modelUnavailable ≠ ApiError.invalidInput :=
  ⟨by decide, rfl, rfl, by decide⟩

/-- Claim C6, amended: with the model loaded, a sentence that is empty
after trimming makes `/autocomplete` and `/refine` return InvalidInput
(HTTP 400) with zero model invocations; the handlers are pure, so no
state is mutated. -/
theorem claim_c6_empty_sentence :
    ∀ (m : LlamaModel) (sentence : Chars) (suggestions : List Chars),
      pyStrip sentence = [] →
      autocompleteHandler (some m) sentence suggestions = (.error .invalidInput, 0) ∧
      refineHandler (some m) sentence suggestions = (.error .invalidInput, 0) := by
  intro m s sug h
  constructor
  · simp [autocompleteHandler, h]
  · simp [refineHandler, h]

/-- Witness for C6 at a whitespace-only sentence with a loaded model. -/
theorem claim_c6_empty_sentence_witness :
    autocompleteHandler (some (fun _ _ => .ok "x".data)) "   ".data ["p".data] =
      (.error .invalidInput, 0) ∧
    refineHandler (some (fun _ _ => .ok "x".data)) "   ".data ["p".data] =
      (.error .invalidInput, 0) :=
  claim_c6_empty_sentence (fun _ _ => .ok "x".data) "   ".data ["p".data] (by decide)

/-- Claim C7: with the model handle `None`, `/autocomplete`, `/refine`
and `/health` all fail with ModelUnavailable (HTTP 503) and perform zero
model invocations; the handlers take the handle as a value and return
only a response, so no reinitialization can occur. -/
theorem claim_c7_model_unavailable :
    ∀ (sentence : Chars) (suggestions : List Chars),
      autocompleteHandler none sentence suggestions = (.error .modelUnavailable, 0) ∧
      refineHandler none sentence suggestions = (.error .modelUnavailable, 0) ∧
      health_check none = .error .modelUnavailable :=
  fun _ _ => ⟨rfl, rfl, rfl⟩

/-- Witness for C7 at a concrete request. -/
theorem claim_c7_model_unavailable_witness :
    autocompleteHandler none "soften the overall".data ["warm".data] =
      (.error .modelUnavailable, 0) ∧
    refineHandler none "soften the overall".data ["warm".data] =
      (.error .modelUnavailable, 0) ∧
    health_check none = .error .modelUnavailable :=
  claim_c7_model_unavailable "soften the overall".data ["warm".data]

/-- Claim C8: the availability check precedes input validation, so a
whitespace-only sentence sent while the model is not loaded yields
ModelUnavailable (503), not InvalidInput (400), on both handlers. -/
theorem claim_c8_availability_first :
    ∀ (sentence : Chars) (suggestions : List Chars),
      pyStrip sentence = [] →
      (autocompleteHandler none sentence suggestions).1 = .error .modelUnavailable ∧
      (refineHandler none sentence suggestions).1 = .error .modelUnavailable ∧
      (autocompleteHandler none sentence suggestions).1 ≠ .error .invalidInput ∧
      (refineHandler none sentence suggestions).1 ≠ .error .invalidInput := by
  intro s sug h
  refine ⟨rfl, rfl, by simp [autocompleteHandler], by simp [refineHandler]⟩

/-- Witness for C8 at a whitespace-only request. -/
theorem claim_c8_availability_first_witness :
    (autocompleteHandler none "  ".data []).1 = .error .modelUnavailable ∧
    (autocompleteHandler none "  ".data []).1 ≠ .error .invalidInput := by
  refine ⟨(claim_c8_availability_first "  ".data [] (by decide)).1,
    (claim_c8_availability_first "  ".data [] (by decide)).2.2.1⟩

/-- Claim C9, counterexample: the claim fixes the nucleus-sampling
threshold at 0.9 across all variants including the image pipeline, but
the Gemini client is constructed with no `top_p` at all. -/
theorem claim_c9_counterexample :
    gemini_args.top_p = none ∧ gemini_args.top_p ≠ some ((9:ℚ)/10) := by
  refine ⟨rfl, ?_⟩
  rw [show gemini_args.top_p = none from rfl]
  simp

/-- Claim C9, amended: the short-form call uses max_tokens 20,
temperature 0.1, top_p 0.9; the long-form call uses max_tokens 50,
temperature 0.2, top_p 0.9 (temperatures in the 0.1-0.2 range and
top_p 0.9 for both text variants); the image pipeline sets no sampling
options at all - no token budget, temperature, or top_p. -/
theorem claim_c9_sampling_args :
    autocomplete_lightart_args.max_tokens = some 20 ∧
    autocomplete_lightart_args.temperature = some ((1:ℚ)/10) ∧
    autocomplete_lightart_args.top_p = some ((9:ℚ)/10) ∧
    refine_lightart_args.max_tokens = some 50 ∧
    refine_lightart_args.temperature = some ((2:ℚ)/10) ∧
    refine_lightart_args.top_p = some ((9:ℚ)/10) ∧
    gemini_args.max_tokens = none ∧
    gemini_args.temperature = none ∧
    gemini_args.top_p = none :=
  ⟨rfl, by norm_num [autocomplete_lightart_args], by norm_num [autocomplete_lightart_args],
    rfl, by norm_num [refine_lightart_args], by norm_num [refine_lightart_args],
    rfl, rfl, rfl⟩

/-- Claim C10: whatever string the interpreter binds `__name__` to, the
guard at line 125 of `suggestionsPY.py` looks up the unbound name
`_name_`, so its evaluation is a NameError - it never yields `true` and
the guarded example block never executes; the function
`gemini_user_style_suggestions` is already bound in the module namespace
when the guard runs and the guard binds nothing. -/
theorem claim_c10_dead_guard :
    ∀ name_value : Chars,
      evalGuard (suggestionsModuleEnv name_value) =
        .error "NameError: name _name_ is not defined".data ∧
      (∀ b, evalGuard (suggestionsModuleEnv name_value) ≠ .ok b) ∧
      lookupKey (suggestionsModuleEnv name_value) "gemini_user_style_suggestions".data =
        some PyVal.func := by
  intro v
  have h1 : evalGuard (suggestionsModuleEnv v) =
      .error "NameError: name _name_ is not defined".data := by
    unfold evalGuard suggestionsModuleEnv
    simp only [lookupKey]
    rw [if_neg (by decide), if_neg (by decide), if_neg (by decide)]
  refine ⟨h1, ?_, ?_⟩
  · intro b h2
    rw [h1] at h2
    exact absurd h2 (by simp)
  · unfold suggestionsModuleEnv
    simp only [lookupKey]
    rw [if_neg (by decide), if_neg (by decide), if_pos (by decide)]

/-- Witness for C10 with the interpreter's script-mode binding of
`__name__`. -/
theorem claim_c10_dead_guard_witness :
    evalGuard (suggestionsModuleEnv "__main__".data) =
      .error "NameError: name _name_ is not defined".data ∧
    evalGuard (suggestionsModuleEnv "__main__".data) ≠ .ok true :=
  ⟨(claim_c10_dead_guard "__main__".data).1,
    (claim_c10_dead_guard "__main__".data).2.1 true⟩
